import Mathlib

/-!
Verification development for the `django-alt` repository.

The development shallowly embeds the two code areas the claims are about:

* `django_alt/managers.py` — `ValidatedManager` with its `_validation_sequence`,
  `create` and `create_many`.  Validator callbacks are modelled as arbitrary
  functions on dictionary values; each callback receives the current value of
  the dictionary object passed to it and yields the value it leaves in that
  object (its in-place mutation) together with the value it returns
  (`Option`, since a Python callback may return `None`).  A returned
  dictionary is modelled as a distinct fresh object.  Runs record a trace of
  every validator and ORM call, in order, with the argument values.

* the endpoint layer (`experimental/endpoints.py`), which is not among the
  source files; its behaviour is modelled from the specification and from its
  test suite `django_alt_tests/tests/v1/test_endpoints.py`, which is a source
  file.  Definitions for that layer carry a `Modelled from the spec` note.
-/

set_option autoImplicit false

/-- Attribute dictionaries handled by `ValidatedManager` (a Python `dict`
mapping field names to values; values are modelled as integers). -/
abbrev Dict := List (String × Int)

/-- Errors: a raised Python exception, carrying its message. -/
abbrev Err := String

/-- Modelled from the spec: `coal` from `django_alt/utils/shortcuts.py` is not
among the source files.  As used in `_validation_sequence`
(`attrs = coal(self.validator.clean(attrs), attrs)`) it is null-coalescing:
the first argument unless it is `None`, otherwise the second. -/
def coal (x : Option Dict) (y : Dict) : Dict :=
  x.getD y

/-- One recorded call made by `ValidatedManager`: the seven validator
callbacks of `_validation_sequence`, the ORM calls, and `did_create`.
`I` is the type of model instances. -/
inductive Ev (I : Type) where
  | cleanFields (d : Dict)
  | clean (d : Dict)
  | base (d : Dict)
  | validateFields (d : Dict)
  | validateChecks (d : Dict)
  | willCreate (d : Dict)
  | baseDb (d : Dict)
  /-- `self.model.objects.create(**attrs)` -/
  | objectsCreate (d : Dict)
  /-- `self.model(**attrs)` (constructor, no persistence) -/
  | newInstance (d : Dict)
  /-- `self.model.objects.bulk_create(instances)` -/
  | bulkCreate (insts : List I)
  /-- `self.validator.did_create(instance, attrs)` -/
  | didCreate (inst : I) (d : Dict)
  deriving DecidableEq, Repr

/-- Behaviour of one validator callback, as a function of the dictionary
value it receives: either it raises, or it yields the value it leaves in the
dictionary object passed to it (first component; in-place mutation) and the
value it returns (`none` models Python `None`). -/
abbrev Callback := Dict → Except Err (Dict × Option Dict)

/-- A validator, by the behaviour of its callbacks (`django_alt`'s
`Validator` interface as used by `ValidatedManager`).  `did_create` receives
the created instance and the attrs dictionary; its return value is unused by
the manager. -/
structure Validator (I : Type) where
  clean_fields : Callback
  clean : Callback
  base : Callback
  validate_fields : Callback
  validate_checks : Callback
  will_create : Callback
  base_db : Callback
  did_create : I → Dict → Except Err Unit

/-- The model class: its ORM `create` call and its constructor. -/
structure ModelCls (I : Type) where
  objectsCreate : Dict → I
  construct : Dict → I

/-- State of the local variable `attrs` inside `_validation_sequence`.
`cur` is the value of the object currently bound to the local name `attrs`;
`orig` is the current value of the dictionary object that the caller passed
in; `aliased` says whether the local name still refers to that original
object (it stops doing so once a callback's non-`None` return value is
coalesced in). -/
structure SeqState where
  cur : Dict
  orig : Dict
  aliased : Bool
  deriving DecidableEq, Repr

/-- Run a callback statement whose Python return value is discarded by the
caller, e.g. `self.validator.clean_fields(attrs, attrs.keys())`: the in-place
mutation lands in the object bound to `attrs` (and hence in the original
object while still aliased); the returned value is dropped. -/
def stepDiscard (f : Callback) (s : SeqState) : Except Err SeqState :=
  match f s.cur with
  | Except.error e => Except.error e
  | Except.ok (cur', _ret) =>
      Except.ok { cur := cur'
                  orig := if s.aliased then cur' else s.orig
                  aliased := s.aliased }

/-- Run a statement `attrs = coal(self.validator.f(attrs), attrs)`: the
in-place mutation lands in the object bound to `attrs`; if the callback
returned a dictionary, `coal` rebinds the local name to that (fresh) object,
so the local name no longer aliases the original. -/
def stepCoal (f : Callback) (s : SeqState) : Except Err SeqState :=
  match f s.cur with
  | Except.error e => Except.error e
  | Except.ok (cur', ret) =>
      Except.ok { cur := coal ret cur'
                  orig := if s.aliased then cur' else s.orig
                  aliased := s.aliased && ret.isNone }

/-- Chain one statement of the sequence onto an accumulated (trace, state)
pair: if no exception has been raised yet, record the call (with the value
the callback receives) and run it. -/
def runStep {I : Type} (mk : Dict → Ev I) (f : SeqState → Except Err SeqState)
    (acc : List (Ev I) × Except Err SeqState) : List (Ev I) × Except Err SeqState :=
  match acc with
  | (t, Except.error e) => (t, Except.error e)
  | (t, Except.ok s) => (t ++ [mk s.cur], f s)

/-- `ValidatedManager._validation_sequence(attrs)`, statement by statement in
source order.  It is called with (a reference to) the caller's attrs
dictionary, whose initial value is `attrs`; the result records the calls made
and, unless an exception was raised, the final `SeqState` (the caller only
ever observes `orig`, since the Python method returns `None`). -/
def validationSequence {I : Type} (v : Validator I) (attrs : Dict) :
    List (Ev I) × Except Err SeqState :=
  ([], Except.ok { cur := attrs, orig := attrs, aliased := true })
  |> runStep Ev.cleanFields (stepDiscard v.clean_fields)
  |> runStep Ev.clean (stepCoal v.clean)
  |> runStep Ev.base (stepCoal v.base)
  |> runStep Ev.validateFields (stepDiscard v.validate_fields)
  |> runStep Ev.validateChecks (stepDiscard v.validate_checks)
  |> runStep Ev.willCreate (stepCoal v.will_create)
  |> runStep Ev.baseDb (stepCoal v.base_db)

/-- `ValidatedManager.create(**attrs)`: run the validation sequence on the
(fresh) attrs dictionary, then `instance = self.model.objects.create(**attrs)`
— with `create`'s own local `attrs`, i.e. the original object —, then
`self.validator.did_create(instance, attrs)`, then return the instance. -/
def createRun {I : Type} (m : ModelCls I) (v : Validator I) (attrs : Dict) :
    List (Ev I) × Except Err I :=
  match validationSequence v attrs with
  | (t, Except.error e) => (t, Except.error e)
  | (t, Except.ok s) =>
      let inst := m.objectsCreate s.orig
      let t := t ++ [Ev.objectsCreate s.orig, Ev.didCreate inst s.orig]
      match v.did_create inst s.orig with
      | Except.error e => (t, Except.error e)
      | Except.ok _ => (t, Except.ok inst)

/-- First loop of `create_many`: for each attrs dictionary (each a distinct
object), run the validation sequence and construct (without persisting)
`self.model(**attrs)`, pairing each instance with the final value of its
attrs dictionary.  An exception stops the loop and propagates. -/
def buildInstances {I : Type} (m : ModelCls I) (v : Validator I) :
    List Dict → List (Ev I) × Except Err (List (I × Dict))
  | [] => ([], Except.ok [])
  | attrs :: rest =>
      match validationSequence v attrs with
      | (t, Except.error e) => (t, Except.error e)
      | (t, Except.ok s) =>
          let inst := m.construct s.orig
          let t := t ++ [Ev.newInstance s.orig]
          match buildInstances m v rest with
          | (t', Except.error e) => (t ++ t', Except.error e)
          | (t', Except.ok ps) => (t ++ t', Except.ok ((inst, s.orig) :: ps))

/-- Second loop of `create_many`:
`for instance, attrs in zip(instances, list_of_attrs): did_create(...)`. -/
def didCreateLoop {I : Type} (v : Validator I) :
    List (I × Dict) → List (Ev I) × Except Err Unit
  | [] => ([], Except.ok ())
  | (i, d) :: rest =>
      match v.did_create i d with
      | Except.error e => ([Ev.didCreate i d], Except.error e)
      | Except.ok _ =>
          let (t, r) := didCreateLoop v rest
          (Ev.didCreate i d :: t, r)

/-- `ValidatedManager.create_many(list_of_attrs)`: validate and construct
every element, then `self.model.objects.bulk_create(instances)`, then call
`did_create` per instance in order, then return the instances. -/
def createManyRun {I : Type} (m : ModelCls I) (v : Validator I)
    (listOfAttrs : List Dict) : List (Ev I) × Except Err (List I) :=
  match buildInstances m v listOfAttrs with
  | (t, Except.error e) => (t, Except.error e)
  | (t, Except.ok ps) =>
      let insts := ps.map Prod.fst
      let t := t ++ [Ev.bulkCreate insts]
      match didCreateLoop v ps with
      | (t', Except.error e) => (t ++ t', Except.error e)
      | (t', Except.ok _) => (t ++ t', Except.ok insts)

/-- Whether an event is one of the seven validation callbacks. -/
def isValidationEv {I : Type} : Ev I → Bool
  | Ev.cleanFields _ => true
  | Ev.clean _ => true
  | Ev.base _ => true
  | Ev.validateFields _ => true
  | Ev.validateChecks _ => true
  | Ev.willCreate _ => true
  | Ev.baseDb _ => true
  | _ => false

/-- Whether an event is a storage (persistence) operation of the ORM. -/
def isStorageEv {I : Type} : Ev I → Bool
  | Ev.objectsCreate _ => true
  | Ev.bulkCreate _ => true
  | _ => false

/-- Whether an event is a `did_create` call. -/
def isDidCreateEv {I : Type} : Ev I → Bool
  | Ev.didCreate _ _ => true
  | _ => false

/-- A callback that performs no in-place mutation: whatever it returns, it
leaves the dictionary object it received unchanged. -/
def NoMut (f : Callback) : Prop :=
  ∀ d r, f d = Except.ok r → r.1 = d

/-!
The endpoint layer.  The module `experimental/endpoints.py` is not among the
source files; only its test suite is.  All definitions below are therefore
modelled from the specification's description of the layer ("ordering of
validation callbacks, config-shorthand expansion, response-type coercion",
"validating configuration dictionaries at class-definition time") and from
the behaviour its test suite `django_alt_tests/tests/v1/test_endpoints.py`
pins down.
-/

/-- Modelled from the spec: the universe of Python values an endpoint
definition or handler manipulates (`experimental/endpoints.py` is missing).
`pyclass b` is a class object, `b` recording whether it has `Meta.model`;
`pyfunc` is a callable; `pyresponse` is a framework `Response`;
`pyreturnlist` is a framework `ReturnList`. -/
inductive PyVal where
  | pynone
  | pystr (s : String)
  | pyint (n : Int)
  | pydict (entries : List (String × PyVal))
  | pylist (xs : List PyVal)
  | pytuple (xs : List PyVal)
  | pyset (xs : List PyVal)
  | pyfunc (tag : Nat)
  | pyclass (hasMetaModel : Bool)
  | pyresponse (data : PyVal) (status : Int)
  | pyreturnlist (xs : List PyVal)

/-- First-match lookup in an association list keyed by strings (Python
`d[k]` / `k in d` on our dictionary model). -/
def alookup {α : Type} (k : String) : List (String × α) → Option α
  | [] => none
  | p :: ps => if p.1 = k then some p.2 else alookup k ps

/-- Python `d.update(u)`: keys already in `d` are overwritten in place
(keeping their position), new keys of `u` are appended. -/
def dictUpdate {α : Type} (d u : List (String × α)) : List (String × α) :=
  (d.map fun p =>
    match alookup p.1 u with
    | some v => (p.1, v)
    | none => p)
  ++ u.filter fun q => (alookup q.1 d).isNone

/-- Strip leading and trailing whitespace from a list of characters
(Python `str.strip()`). -/
def trimChars (cs : List Char) : List Char :=
  ((cs.dropWhile Char.isWhitespace).reverse.dropWhile Char.isWhitespace).reverse

/-- Python `str.strip()`. -/
def strTrim (s : String) : String := String.mk (trimChars s.data)

/-- Split a list of characters on commas, keeping empty parts
(Python `str.split(',')`). -/
def splitCommaChars (cs : List Char) : List (List Char) :=
  cs.foldr
    (fun c acc =>
      if c = ',' then [] :: acc
      else
        match acc with
        | [] => [[c]]
        | g :: gs => (c :: g) :: gs)
    [[]]

/-- Python `str.lower()`. -/
def strLower (s : String) : String := String.mk (s.data.map Char.toLower)

/-- Split a config key on commas and strip surrounding whitespace from each
part (Python `key.split(',')` followed by `.strip()`). -/
def methodsOf (key : String) : List String :=
  (splitCommaChars key.data).map fun cs => String.mk (trimChars cs)

/-- Record a method name with its config dict into the accumulated result:
if the method is already present its dict is updated (Python
`dict.update`), otherwise a new entry is appended. -/
def insertMethod {α : Type} (res : List (String × List (String × α)))
    (mname : String) (value : List (String × α)) :
    List (String × List (String × α)) :=
  if (alookup mname res).isSome then
    res.map fun p => if p.1 = mname then (p.1, dictUpdate p.2 value) else p
  else
    res ++ [(mname, value)]

/-- Modelled from the spec: `MetaEndpoint.transform_config_shorthands` from
`experimental/endpoints.py` is not among the source files.  Per the spec's
"config-shorthand expansion" and the expectations of
`test_transform_config_shorthands_positive`: every config key is split on
commas into method names (whitespace stripped), a `None` value becomes an
empty dict, and when a method name arises repeatedly the dicts are merged
into a single entry by successive `dict.update`. -/
def transform_config_shorthands {α : Type}
    (config : List (String × Option (List (String × α)))) :
    List (String × List (String × α)) :=
  config.foldl
    (fun res kv =>
      (methodsOf kv.1).foldl (fun r mname => insertMethod r mname (kv.2.getD [])) res)
    []

/-- The config dicts contributed to method `mname` by the config's entries,
in order: one copy of the entry's value (`None` read as the empty dict) per
occurrence of `mname` among the entry's comma-split, stripped method names. -/
def occurrencesFor {α : Type} (mname : String)
    (config : List (String × Option (List (String × α)))) :
    List (List (String × α)) :=
  (config.map fun kv =>
    ((methodsOf kv.1).filter fun n => n = mname).map fun _ => kv.2.getD []).flatten

/-- HTTP methods an endpoint config may mention (the test suite exercises
`get`, `post`, `put`, `patch`, `delete`; `foo` is rejected as unknown). -/
def KNOWN_HTTP_METHODS : List String := ["get", "post", "patch", "put", "delete"]

/-- The config key for URL fields (`KW_CONFIG_URL_FIELDS`). -/
def KW_CONFIG_URL_FIELDS : String := "url_fields"

/-- Whether a Python value is a class object. -/
def isClassVal : PyVal → Bool
  | PyVal.pyclass _ => true
  | _ => false

/-- Whether a Python value is callable. -/
def isCallableVal : PyVal → Bool
  | PyVal.pyfunc _ => true
  | _ => false

/-- Whether a Python value is a `dict`. -/
def isDictVal : PyVal → Bool
  | PyVal.pydict _ => true
  | _ => false

/-- Whether a Python value counts as an iterable for the `url_fields` check
(the test suite accepts tuples, lists and sets and rejects a string). -/
def isIterableVal : PyVal → Bool
  | PyVal.pylist _ => true
  | PyVal.pytuple _ => true
  | PyVal.pyset _ => true
  | _ => false

/-- Whether a serializer class carries `Meta.model`. -/
def serializerHasModel : PyVal → Bool
  | PyVal.pyclass hasMetaModel => hasMetaModel
  | _ => false

/-- A per-method config has a `query` entry. -/
def hasQuery (cfg : List (String × PyVal)) : Bool :=
  (alookup "query" cfg).isSome

/-- A per-method config has a `query` entry that is not callable. -/
def queryNotCallable (cfg : List (String × PyVal)) : Bool :=
  match alookup "query" cfg with
  | some q => !isCallableVal q
  | none => false

/-- A per-method config has a `filters` entry. -/
def hasFilters (cfg : List (String × PyVal)) : Bool :=
  (alookup "filters" cfg).isSome

/-- A per-method config has a `filters` entry that is not a `dict`. -/
def filtersNotDict (cfg : List (String × PyVal)) : Bool :=
  match alookup "filters" cfg with
  | some f => !isDictVal f
  | none => false

/-- A per-method config has a `url_fields` entry that is not an iterable. -/
def urlFieldsNotIterable (cfg : List (String × PyVal)) : Bool :=
  match alookup KW_CONFIG_URL_FIELDS cfg with
  | some u => !isIterableVal u
  | none => false

/-- Modelled from the spec: the per-method assertions run at class-definition
time (`MetaEndpoint` of `experimental/endpoints.py` is missing); conditions
and messages follow `EndpointDefinitionLogicTests`. -/
def checkMethodCfg (mname : String) (cfg : List (String × PyVal)) : Except Err Unit :=
  if (KNOWN_HTTP_METHODS.contains mname) = false then
    Except.error ("unknown HTTP method `" ++ mname ++ "` in endpoint config")
  else if queryNotCallable cfg then
    Except.error "`query` must be a callable"
  else if filtersNotDict cfg then
    Except.error "`filters` field must be of type `dict`"
  else if hasFilters cfg && !hasQuery cfg then
    Except.error "`filters` cannot be used without `query`"
  else if mname = "delete" && !hasQuery cfg then
    Except.error "`config` for `delete` must include a `query` function"
  else if urlFieldsNotIterable cfg then
    Except.error "`url_fields` field must be an iterable"
  else
    Except.ok ()

/-- Run `checkMethodCfg` over every entry of a transformed config, stopping
at the first failing assertion. -/
def checkMethods : List (String × List (String × PyVal)) → Except Err Unit
  | [] => Except.ok ()
  | (mname, cfg) :: rest =>
      match checkMethodCfg mname cfg with
      | Except.error e => Except.error e
      | Except.ok _ => checkMethods rest

/-- Read a raw config value as a per-method shorthand value: a `dict`, or
`None`; anything else is an incorrectly formed config object. -/
def toMethodOpt : PyVal → Option (Option (List (String × PyVal)))
  | PyVal.pydict d => some (some d)
  | PyVal.pynone => some none
  | _ => none

/-- The class body of an `Endpoint` subclass: its `serializer`, `model` and
`config` attributes, when defined. -/
structure EndpointDecl where
  serializer : Option PyVal
  model : Option PyVal
  config : Option PyVal

/-- Modelled from the spec: "validating configuration dictionaries at
class-definition time" (`MetaEndpoint.__new__` of `experimental/endpoints.py`
is missing; assertions and messages follow `EndpointDefinitionLogicTests`).
On success it yields the transformed config, or `none` when the class body
defines no config (such a class is well-defined but `as_view` refuses it). -/
def checkEndpointDef (decl : EndpointDecl) :
    Except Err (Option (List (String × List (String × PyVal)))) :=
  match decl.serializer with
  | none => Except.error "field `serializer` is required when defining an endpoint"
  | some s =>
      if isClassVal s = false then
        Except.error "field `serializer` must be a class"
      else if decl.model.isNone && !serializerHasModel s then
        Except.error "Explicit `model` field is missing on the endpoint"
      else
        match decl.config with
        | none => Except.ok none
        | some (PyVal.pydict entries) =>
            (match entries.mapM (fun p => (toMethodOpt p.2).map fun v => (p.1, v)) with
             | none => Except.error "Incorrectly formed endpoint config object"
             | some cfgEntries =>
                 let t := transform_config_shorthands cfgEntries
                 match checkMethods t with
                 | Except.error e => Except.error e
                 | Except.ok _ => Except.ok (some t))
        | some _ => Except.error "`config` field must be of type `dict`"

/-- An `Endpoint` class as it exists after a successful definition: it
carries its transformed config, if a config was defined at all. -/
structure EndpointCls where
  transformedConfig : Option (List (String × List (String × PyVal)))

/-- Defining an `Endpoint` subclass: run the class-definition-time checks
and build the class object. -/
def defineEndpoint (decl : EndpointDecl) : Except Err EndpointCls :=
  match checkEndpointDef decl with
  | Except.error e => Except.error e
  | Except.ok c => Except.ok { transformedConfig := c }

/-- An HTTP response: its data and its status code. -/
structure Rsp where
  data : PyVal
  status : Int

/-- The framework's default status code for a successful response. -/
def DEFAULT_STATUS : Int := 200

/-- Modelled from the spec: "response-type coercion" (the handler-result
handling of `experimental/endpoints.py` is missing; accepted and rejected
shapes follow `test_overridden_endpoint_handler_return_type_checks_negative`).
A `dict`, a `(dict, int)` pair, a `Response` or a `ReturnList` is coerced to
a response; any other shape fails an assertion. -/
def coerceResponse (v : PyVal) : Except Err Rsp :=
  match v with
  | PyVal.pydict d => Except.ok { data := PyVal.pydict d, status := DEFAULT_STATUS }
  | PyVal.pytuple [PyVal.pydict d, PyVal.pyint n] =>
      Except.ok { data := PyVal.pydict d, status := n }
  | PyVal.pyresponse data status => Except.ok { data := data, status := status }
  | PyVal.pyreturnlist xs =>
      Except.ok { data := PyVal.pyreturnlist xs, status := DEFAULT_STATUS }
  | _ => Except.error "endpoint handler must return a dict, a dict with a status code or a Response"

/-- Exceptions an endpoint handler can raise that the view layer translates
into responses. -/
inductive HandlerExc where
  | restValidationError (detail : PyVal)
  | djangoValidationError (detail : PyVal)
  | permissionError
  | notFound (msg : String)

/-- An incoming request: its HTTP method and whether `request.user` is
anonymous. -/
structure Request where
  method : String
  userIsAnonymous : Bool

/-- What a handler invocation does: return a value or raise an exception. -/
inductive HandlerOutcome where
  | ret (v : PyVal)
  | exc (e : HandlerExc)

/-- Modelled from the spec: the translation of handler exceptions into
responses (the view layer of `experimental/endpoints.py` is missing;
statuses follow `EndpointViewLogicTests`): validation errors of either
flavor give 400; `PermissionError` gives 401 for an anonymous user and 403
otherwise; an object-not-found error gives 404 with the lookup's message as
the response data. -/
def excResponse (req : Request) : HandlerExc → Rsp
  | HandlerExc.restValidationError detail => { data := detail, status := 400 }
  | HandlerExc.djangoValidationError detail => { data := detail, status := 400 }
  | HandlerExc.permissionError =>
      { data := PyVal.pynone, status := if req.userIsAnonymous then 401 else 403 }
  | HandlerExc.notFound msg => { data := PyVal.pystr msg, status := 404 }

/-- Modelled from the spec: the view produced by `as_view` (missing from the
source files).  A request whose lowercased HTTP method has no entry in the
endpoint's config is answered with 405; otherwise the handler runs and its
return value is coerced (a failed coercion assertion propagates), while a
raised handler exception is translated by `excResponse`. -/
def dispatch (config : List (String × List (String × PyVal)))
    (handler : Request → HandlerOutcome) (req : Request) : Except Err Rsp :=
  if (alookup (strLower req.method) config).isNone then
    Except.ok { data := PyVal.pynone, status := 405 }
  else
    match handler req with
    | HandlerOutcome.ret v => coerceResponse v
    | HandlerOutcome.exc e => Except.ok (excResponse req e)

/-- The failure `as_view` and direct calls signal. -/
inductive ViewErr where
  | improperlyConfigured
  deriving DecidableEq, Repr

/-- Modelled from the spec: calling an `Endpoint` instance directly
(`Endpoint.__call__`, missing from the source files) unconditionally raises
`ImproperlyConfigured` — requests must be wired through `as_view`. -/
def callEndpointDirectly (_e : EndpointCls) : Except ViewErr Rsp :=
  Except.error ViewErr.improperlyConfigured

/-- Modelled from the spec: `Endpoint.as_view` (missing from the source
files) raises `ImproperlyConfigured` when the class defines no config, and
otherwise yields the view function that serves requests against the
transformed config. -/
def asView (e : EndpointCls) :
    Except ViewErr ((Request → HandlerOutcome) → Request → Except Err Rsp) :=
  match e.transformedConfig with
  | none => Except.error ViewErr.improperlyConfigured
  | some cfg => Except.ok (fun handler req => dispatch cfg handler req)

/-- Whether an `Except` result is a raised exception. -/
def isErr {ε α : Type} : Except ε α → Bool
  | Except.error _ => true
  | Except.ok _ => false

/-!
Concrete inputs used to witness the theorems below: validators with simple
concrete callback behaviour, an identity model class whose instances are
their attribute dictionaries, and small endpoint declarations mirroring the
test suite's fixtures.
-/

/-- A callback that mutates nothing, returns `None` and never raises. -/
def cbNoop : Callback := fun d => Except.ok (d, none)

/-- A validator whose callbacks all mutate nothing, return `None` and never
raise. -/
def vNoop : Validator Dict :=
  { clean_fields := cbNoop, clean := cbNoop, base := cbNoop,
    validate_fields := cbNoop, validate_checks := cbNoop,
    will_create := cbNoop, base_db := cbNoop,
    did_create := fun _ _ => Except.ok () }

/-- Like `vNoop`, except `clean` returns a replacement dictionary. -/
def vRepl : Validator Dict :=
  { vNoop with clean := fun d => Except.ok (d, some [("x", 99)]) }

/-- Like `vNoop`, except `validate_checks` raises. -/
def vFail : Validator Dict :=
  { vNoop with validate_checks := fun _ => Except.error "validation failed" }

/-- A model class whose instances are their attribute dictionaries. -/
def modelId : ModelCls Dict :=
  { objectsCreate := fun d => d, construct := fun d => d }

/-- A concrete attrs dictionary. -/
def attrsEx : Dict := [("a", 1)]

/-- A second concrete attrs dictionary. -/
def attrsEx2 : Dict := [("b", 2)]

/-- An endpoint class body defining nothing (`test_empty_definition_negative`). -/
def declEmpty : EndpointDecl :=
  { serializer := none, model := none, config := none }

/-- A serializer class with `Meta.model`, like `ConcreteSerializer`. -/
def serializerEx : PyVal := PyVal.pyclass true

/-- An endpoint class body with a serializer but no config
(`test_calling_as_view_with_empty_config_negative`). -/
def declNoConfig : EndpointDecl :=
  { serializer := some serializerEx, model := none, config := none }

/-- An endpoint class body whose config is the string `'foo'`
(`test_config_is_not_dict`). -/
def declConfigStr : EndpointDecl :=
  { serializer := some serializerEx, model := none, config := some (PyVal.pystr "foo") }

/-- An endpoint class body with config `{'delete': None}`
(`test_delete_called_without_query_negative`). -/
def declDeleteNoQuery : EndpointDecl :=
  { serializer := some serializerEx, model := none,
    config := some (PyVal.pydict [("delete", PyVal.pynone)]) }

/-- An endpoint class body with config `{'get': None}`, like
`ConcreteEndpoint`. -/
def declGet : EndpointDecl :=
  { serializer := some serializerEx, model := none,
    config := some (PyVal.pydict [("get", PyVal.pynone)]) }

/-- The transformed config of `ConcreteEndpoint`: `{'get': {}}`. -/
def getConfig : List (String × List (String × PyVal)) := [("get", [])]

/-- A `GET` request from a logged-in user. -/
def getReq : Request := { method := "GET", userIsAnonymous := false }

/-- A `GET` request from an anonymous user. -/
def getReqAnon : Request := { method := "GET", userIsAnonymous := true }

/-- A `POST` request (no `post` entry in `getConfig`). -/
def postReq : Request := { method := "POST", userIsAnonymous := false }

/-- An endpoint class that defines no config. -/
def clsNoConfig : EndpointCls := { transformedConfig := none }

/-- An endpoint class with the `ConcreteEndpoint` config. -/
def clsGet : EndpointCls := { transformedConfig := some getConfig }

/-- Whether a Python value is an `int`. -/
def isIntVal : PyVal → Bool
  | PyVal.pyint _ => true
  | _ => false

theorem runStep_ok {I : Type} (mk : Dict → Ev I) (f : SeqState → Except Err SeqState)
    (t : List (Ev I)) (s : SeqState) :
    runStep mk f (t, Except.ok s) = (t ++ [mk s.cur], f s) := rfl

theorem valSeq_unfold {I : Type} (v : Validator I) (attrs : Dict) :
    validationSequence v attrs =
      runStep Ev.baseDb (stepCoal v.base_db)
       (runStep Ev.willCreate (stepCoal v.will_create)
        (runStep Ev.validateChecks (stepDiscard v.validate_checks)
         (runStep Ev.validateFields (stepDiscard v.validate_fields)
          (runStep Ev.base (stepCoal v.base)
           (runStep Ev.clean (stepCoal v.clean)
            ([Ev.cleanFields attrs],
             stepDiscard v.clean_fields { cur := attrs, orig := attrs, aliased := true })))))) :=
  rfl

/-- Case analysis on `_validation_sequence`: either every callback succeeds
and the trace is exactly the seven calls in source order (with the
intermediate states exposed), or a callback raises and the trace holds only
validation-callback events. -/
theorem seq_main {I : Type} (v : Validator I) (attrs : Dict) :
    (∃ s1 s2 s3 s4 s5 s6 s7,
      stepDiscard v.clean_fields { cur := attrs, orig := attrs, aliased := true } = Except.ok s1 ∧
      stepCoal v.clean s1 = Except.ok s2 ∧
      stepCoal v.base s2 = Except.ok s3 ∧
      stepDiscard v.validate_fields s3 = Except.ok s4 ∧
      stepDiscard v.validate_checks s4 = Except.ok s5 ∧
      stepCoal v.will_create s5 = Except.ok s6 ∧
      stepCoal v.base_db s6 = Except.ok s7 ∧
      validationSequence v attrs =
        ([Ev.cleanFields attrs, Ev.clean s1.cur, Ev.base s2.cur, Ev.validateFields s3.cur,
          Ev.validateChecks s4.cur, Ev.willCreate s5.cur, Ev.baseDb s6.cur], Except.ok s7)) ∨
    (∃ t e, validationSequence v attrs = (t, Except.error e) ∧ t.all isValidationEv = true) := by
  rcases h1 : stepDiscard v.clean_fields { cur := attrs, orig := attrs, aliased := true }
    with e | s1
  · exact Or.inr ⟨[Ev.cleanFields attrs], e, by rw [valSeq_unfold, h1]; rfl, rfl⟩
  · rcases h2 : stepCoal v.clean s1 with e | s2
    · exact Or.inr ⟨[Ev.cleanFields attrs, Ev.clean s1.cur], e,
        by rw [valSeq_unfold, h1, runStep_ok, h2]; rfl, rfl⟩
    · rcases h3 : stepCoal v.base s2 with e | s3
      · exact Or.inr ⟨[Ev.cleanFields attrs, Ev.clean s1.cur, Ev.base s2.cur], e,
          by rw [valSeq_unfold, h1, runStep_ok, h2, runStep_ok, h3]; rfl, rfl⟩
      · rcases h4 : stepDiscard v.validate_fields s3 with e | s4
        · exact Or.inr ⟨[Ev.cleanFields attrs, Ev.clean s1.cur, Ev.base s2.cur,
            Ev.validateFields s3.cur], e,
            by rw [valSeq_unfold, h1, runStep_ok, h2, runStep_ok, h3, runStep_ok, h4]; rfl, rfl⟩
        · rcases h5 : stepDiscard v.validate_checks s4 with e | s5
          · exact Or.inr ⟨[Ev.cleanFields attrs, Ev.clean s1.cur, Ev.base s2.cur,
              Ev.validateFields s3.cur, Ev.validateChecks s4.cur], e,
              by rw [valSeq_unfold, h1, runStep_ok, h2, runStep_ok, h3, runStep_ok, h4,
                runStep_ok, h5]; rfl, rfl⟩
          · rcases h6 : stepCoal v.will_create s5 with e | s6
            · exact Or.inr ⟨[Ev.cleanFields attrs, Ev.clean s1.cur, Ev.base s2.cur,
                Ev.validateFields s3.cur, Ev.validateChecks s4.cur, Ev.willCreate s5.cur], e,
                by rw [valSeq_unfold, h1, runStep_ok, h2, runStep_ok, h3, runStep_ok, h4,
                  runStep_ok, h5, runStep_ok, h6]; rfl, rfl⟩
            · rcases h7 : stepCoal v.base_db s6 with e | s7
              · exact Or.inr ⟨[Ev.cleanFields attrs, Ev.clean s1.cur, Ev.base s2.cur,
                  Ev.validateFields s3.cur, Ev.validateChecks s4.cur, Ev.willCreate s5.cur,
                  Ev.baseDb s6.cur], e,
                  by rw [valSeq_unfold, h1, runStep_ok, h2, runStep_ok, h3, runStep_ok, h4,
                    runStep_ok, h5, runStep_ok, h6, runStep_ok, h7]; rfl, rfl⟩
              · exact Or.inl ⟨s1, s2, s3, s4, s5, s6, s7, rfl, h2, h3, h4, h5, h6, h7,
                  by rw [valSeq_unfold, h1, runStep_ok, h2, runStep_ok, h3, runStep_ok, h4,
                    runStep_ok, h5, runStep_ok, h6, runStep_ok, h7]; rfl⟩

/-- Every event emitted by `_validation_sequence` is a validation callback. -/
theorem seq_events {I : Type} (v : Validator I) (attrs : Dict) :
    (validationSequence v attrs).1.all isValidationEv = true := by
  rcases seq_main v attrs with
    ⟨s1, s2, s3, s4, s5, s6, s7, _, _, _, _, _, _, _, hEq⟩ | ⟨t, e, hEq, hAll⟩
  · rw [hEq]; rfl
  · rw [hEq]; exact hAll

theorem createRun_eq_of_seq_ok {I : Type} (m : ModelCls I) (v : Validator I) (attrs : Dict)
    (T : List (Ev I)) (s : SeqState)
    (hEq : validationSequence v attrs = (T, Except.ok s)) :
    createRun m v attrs =
      (match v.did_create (m.objectsCreate s.orig) s.orig with
       | Except.error e =>
           (T ++ [Ev.objectsCreate s.orig, Ev.didCreate (m.objectsCreate s.orig) s.orig],
            Except.error e)
       | Except.ok _ =>
           (T ++ [Ev.objectsCreate s.orig, Ev.didCreate (m.objectsCreate s.orig) s.orig],
            Except.ok (m.objectsCreate s.orig))) := by
  unfold createRun
  rw [hEq]

theorem createRun_eq_of_seq_err {I : Type} (m : ModelCls I) (v : Validator I) (attrs : Dict)
    (T : List (Ev I)) (e : Err)
    (hEq : validationSequence v attrs = (T, Except.error e)) :
    createRun m v attrs = (T, Except.error e) := by
  unfold createRun
  rw [hEq]

/-- Success shape of `create`: the validation trace, the created instance and
the full call trace. -/
theorem createRun_ok_shape {I : Type} (m : ModelCls I) (v : Validator I) (attrs : Dict) :
    ∀ t inst, createRun m v attrs = (t, Except.ok inst) →
      ∃ d1 d2 d3 d4 d5 d6 s,
        validationSequence v attrs =
          ([Ev.cleanFields attrs, Ev.clean d1, Ev.base d2, Ev.validateFields d3,
            Ev.validateChecks d4, Ev.willCreate d5, Ev.baseDb d6], Except.ok s) ∧
        inst = m.objectsCreate s.orig ∧
        t = [Ev.cleanFields attrs, Ev.clean d1, Ev.base d2, Ev.validateFields d3,
             Ev.validateChecks d4, Ev.willCreate d5, Ev.baseDb d6,
             Ev.objectsCreate s.orig, Ev.didCreate inst s.orig] := by
  intro t inst h
  rcases seq_main v attrs with
    ⟨s1, s2, s3, s4, s5, s6, s7, h1, h2, h3, h4, h5, h6, h7, hEq⟩ | ⟨t', e, hEq, _⟩
  · have hC := createRun_eq_of_seq_ok m v attrs _ s7 hEq
    rcases hd : v.did_create (m.objectsCreate s7.orig) s7.orig with e | u
    · rw [hd] at hC
      rw [hC] at h
      simp at h
    · rw [hd] at hC
      rw [hC] at h
      simp only [Prod.mk.injEq, Except.ok.injEq] at h
      obtain ⟨hT, hI⟩ := h
      subst hI
      exact ⟨s1.cur, s2.cur, s3.cur, s4.cur, s5.cur, s6.cur, s7, hEq, rfl, hT.symm⟩
  · rw [createRun_eq_of_seq_err m v attrs t' e hEq] at h
    simp at h

/-- Invariant preserved by a discarding statement when the callback performs
no in-place mutation: the original object's value is untouched, and while
still aliased the local value equals it. -/
theorem stepDiscard_preserves (f : Callback) (hf : NoMut f) (s s' : SeqState)
    (h : stepDiscard f s = Except.ok s') (hcur : s.aliased = true → s.cur = s.orig) :
    s'.orig = s.orig ∧ (s'.aliased = true → s'.cur = s'.orig) := by
  unfold stepDiscard at h
  rcases hfs : f s.cur with e | pr
  · rw [hfs] at h; exact absurd h (by simp)
  · rw [hfs] at h
    obtain ⟨cur', ret⟩ := pr
    have hm : cur' = s.cur := by simpa using hf s.cur (cur', ret) hfs
    have hs' : SeqState.mk cur' (if s.aliased then cur' else s.orig) s.aliased = s' := by
      simpa using h
    subst hs'
    rcases hA : s.aliased with _ | _
    · simp [hA]
    · simp [hA, hm, hcur hA]

/-- Invariant preserved by a coalescing statement when the callback performs
no in-place mutation. -/
theorem stepCoal_preserves (f : Callback) (hf : NoMut f) (s s' : SeqState)
    (h : stepCoal f s = Except.ok s') (hcur : s.aliased = true → s.cur = s.orig) :
    s'.orig = s.orig ∧ (s'.aliased = true → s'.cur = s'.orig) := by
  unfold stepCoal at h
  rcases hfs : f s.cur with e | pr
  · rw [hfs] at h; exact absurd h (by simp)
  · rw [hfs] at h
    obtain ⟨cur', ret⟩ := pr
    have hm : cur' = s.cur := by simpa using hf s.cur (cur', ret) hfs
    have hs' : SeqState.mk (coal ret cur') (if s.aliased then cur' else s.orig)
        (s.aliased && ret.isNone) = s' := by
      simpa using h
    subst hs'
    constructor
    · rcases hA : s.aliased with _ | _
      · simp [hA]
      · simp [hA, hm, hcur hA]
    · intro hA'
      simp only [Bool.and_eq_true] at hA'
      obtain ⟨hA, hN⟩ := hA'
      have hret : ret = none := Option.isNone_iff_eq_none.mp hN
      subst hret
      simp [hA, coal, hm, hcur hA]

/-- When no callback mutates in place, the original attrs object's value
after a successful validation sequence is the initial one. -/
theorem seq_orig {I : Type} (v : Validator I) (attrs : Dict)
    (hn1 : NoMut v.clean_fields) (hn2 : NoMut v.clean) (hn3 : NoMut v.base)
    (hn4 : NoMut v.validate_fields) (hn5 : NoMut v.validate_checks)
    (hn6 : NoMut v.will_create) (hn7 : NoMut v.base_db) :
    ∀ t s, validationSequence v attrs = (t, Except.ok s) → s.orig = attrs := by
  intro t s h
  rcases seq_main v attrs with
    ⟨s1, s2, s3, s4, s5, s6, s7, h1, h2, h3, h4, h5, h6, h7, hEq⟩ | ⟨t', e, hEq, _⟩
  · rw [hEq] at h
    simp only [Prod.mk.injEq, Except.ok.injEq] at h
    obtain ⟨-, hs⟩ := h
    subst hs
    have q1 := stepDiscard_preserves _ hn1 _ _ h1 (fun _ => rfl)
    have q2 := stepCoal_preserves _ hn2 _ _ h2 q1.2
    have q3 := stepCoal_preserves _ hn3 _ _ h3 q2.2
    have q4 := stepDiscard_preserves _ hn4 _ _ h4 q3.2
    have q5 := stepDiscard_preserves _ hn5 _ _ h5 q4.2
    have q6 := stepCoal_preserves _ hn6 _ _ h6 q5.2
    have q7 := stepCoal_preserves _ hn7 _ _ h7 q6.2
    exact q7.1.trans (q6.1.trans (q5.1.trans (q4.1.trans (q3.1.trans (q2.1.trans q1.1)))))
  · rw [hEq] at h
    simp at h

/-- **C1**: in every `ValidatedManager.create(**attrs)` call the validator
callbacks run in the exact fixed order `clean_fields`, `clean`, `base`,
`validate_fields`, `validate_checks`, `will_create`, `base_db`; the model
instance is created (`objects.create`) only after all of them complete, and
`did_create` is invoked exactly once, after creation, with the new instance.
On success the trace is exactly the nine calls in order; if a validation
callback raises, the trace holds validation callbacks only (no creation, no
`did_create`). -/
theorem create_invokes_callbacks_in_order {I : Type} (m : ModelCls I) (v : Validator I)
    (attrs : Dict) :
    (∀ t inst, createRun m v attrs = (t, Except.ok inst) →
      ∃ d1 d2 d3 d4 d5 d6 dI,
        inst = m.objectsCreate dI ∧
        t = [Ev.cleanFields attrs, Ev.clean d1, Ev.base d2, Ev.validateFields d3,
             Ev.validateChecks d4, Ev.willCreate d5, Ev.baseDb d6,
             Ev.objectsCreate dI, Ev.didCreate inst dI]) ∧
    (∀ t e, validationSequence v attrs = (t, Except.error e) →
      createRun m v attrs = (t, Except.error e) ∧ t.all isValidationEv = true) := by
  constructor
  · intro t inst h
    obtain ⟨d1, d2, d3, d4, d5, d6, s, hseq, hinst, ht⟩ := createRun_ok_shape m v attrs t inst h
    exact ⟨d1, d2, d3, d4, d5, d6, s.orig, hinst, ht⟩
  · intro t e h
    refine ⟨createRun_eq_of_seq_err m v attrs t e h, ?_⟩
    have hall := seq_events v attrs
    rw [h] at hall
    exact hall

theorem create_invokes_callbacks_in_order_witness :
    (∃ d1 d2 d3 d4 d5 d6 dI,
      attrsEx = modelId.objectsCreate dI ∧
      ([Ev.cleanFields attrsEx, Ev.clean attrsEx, Ev.base attrsEx, Ev.validateFields attrsEx,
        Ev.validateChecks attrsEx, Ev.willCreate attrsEx, Ev.baseDb attrsEx,
        Ev.objectsCreate attrsEx, Ev.didCreate attrsEx attrsEx] : List (Ev Dict)) =
        [Ev.cleanFields attrsEx, Ev.clean d1, Ev.base d2, Ev.validateFields d3,
         Ev.validateChecks d4, Ev.willCreate d5, Ev.baseDb d6,
         Ev.objectsCreate dI, Ev.didCreate attrsEx dI]) ∧
    (createRun modelId vFail attrsEx =
       ([Ev.cleanFields attrsEx, Ev.clean attrsEx, Ev.base attrsEx, Ev.validateFields attrsEx,
         Ev.validateChecks attrsEx], Except.error "validation failed") ∧
     ([Ev.cleanFields attrsEx, Ev.clean attrsEx, Ev.base attrsEx, Ev.validateFields attrsEx,
       Ev.validateChecks attrsEx] : List (Ev Dict)).all isValidationEv = true) :=
  ⟨(create_invokes_callbacks_in_order modelId vNoop attrsEx).1 _ attrsEx rfl,
   (create_invokes_callbacks_in_order modelId vFail attrsEx).2 _ "validation failed" rfl⟩

/-- **C5**: replacement dictionaries returned by `clean`, `base`,
`will_create` or `base_db` are discarded by `create`: when no callback
mutates the attrs dictionary in place, the created instance comes from the
original attrs passed to `create`, whatever the callbacks returned, because
`_validation_sequence` only rebinds its local name and returns `None`. -/
theorem create_uses_original_attrs {I : Type} (m : ModelCls I) (v : Validator I) (attrs : Dict)
    (hn1 : NoMut v.clean_fields) (hn2 : NoMut v.clean) (hn3 : NoMut v.base)
    (hn4 : NoMut v.validate_fields) (hn5 : NoMut v.validate_checks)
    (hn6 : NoMut v.will_create) (hn7 : NoMut v.base_db) :
    ∀ t inst, createRun m v attrs = (t, Except.ok inst) → inst = m.objectsCreate attrs := by
  intro t inst h
  obtain ⟨d1, d2, d3, d4, d5, d6, s, hseq, hinst, -⟩ := createRun_ok_shape m v attrs t inst h
  rw [hinst, seq_orig v attrs hn1 hn2 hn3 hn4 hn5 hn6 hn7 _ s hseq]

theorem create_uses_original_attrs_witness :
    attrsEx = modelId.objectsCreate attrsEx :=
  create_uses_original_attrs modelId vRepl attrsEx
    (by intro d r h; injection h with h2; subst h2; rfl)
    (by intro d r h; injection h with h2; subst h2; rfl)
    (by intro d r h; injection h with h2; subst h2; rfl)
    (by intro d r h; injection h with h2; subst h2; rfl)
    (by intro d r h; injection h with h2; subst h2; rfl)
    (by intro d r h; injection h with h2; subst h2; rfl)
    (by intro d r h; injection h with h2; subst h2; rfl)
    [Ev.cleanFields attrsEx, Ev.clean attrsEx, Ev.base [("x", 99)],
     Ev.validateFields [("x", 99)], Ev.validateChecks [("x", 99)], Ev.willCreate [("x", 99)],
     Ev.baseDb [("x", 99)], Ev.objectsCreate attrsEx, Ev.didCreate attrsEx attrsEx]
    attrsEx rfl

theorem forall2_exists_of_mem {α β : Type} {R : α → β → Prop} :
    ∀ {l : List α} {ps : List β}, List.Forall₂ R l ps → ∀ a ∈ l, ∃ p ∈ ps, R a p := by
  intro l ps h
  induction h with
  | nil => intro a ha; exact absurd ha (List.not_mem_nil a)
  | cons hR hrest ih =>
      intro a ha
      rcases List.mem_cons.mp ha with rfl | ha'
      · exact ⟨_, List.mem_cons_self _ _, hR⟩
      · obtain ⟨p, hp, hRp⟩ := ih a ha'
        exact ⟨p, List.mem_cons_of_mem _ hp, hRp⟩

theorem buildInstances_cons_eq {I : Type} (m : ModelCls I) (v : Validator I) (a : Dict)
    (rest : List Dict) :
    buildInstances m v (a :: rest) =
      (match validationSequence v a with
       | (tl, Except.error e) => (tl, Except.error e)
       | (tl, Except.ok s) =>
         (match buildInstances m v rest with
          | (t', Except.error e) =>
              ((tl ++ [Ev.newInstance s.orig]) ++ t', Except.error e)
          | (t', Except.ok ps) =>
              ((tl ++ [Ev.newInstance s.orig]) ++ t',
               Except.ok ((m.construct s.orig, s.orig) :: ps)))) := rfl

/-- Success of the first `create_many` loop means: every element's validation
sequence succeeded, in order, and each constructed instance pairs the final
value of its element's attrs dictionary with `self.model(**attrs)`. -/
theorem buildInstances_ok {I : Type} (m : ModelCls I) (v : Validator I) :
    ∀ (l : List Dict) (t : List (Ev I)) (ps : List (I × Dict)),
      buildInstances m v l = (t, Except.ok ps) →
      List.Forall₂ (fun attrs p => ∃ tl s,
        validationSequence v attrs = (tl, Except.ok s) ∧
        p = (m.construct s.orig, s.orig)) l ps := by
  intro l
  induction l with
  | nil =>
      intro t ps h
      injection h with h1 h2
      injection h2 with h3
      subst h3
      exact List.Forall₂.nil
  | cons a rest ih =>
      intro t ps h
      rw [buildInstances_cons_eq] at h
      rcases hv : validationSequence v a with ⟨tl, r⟩
      rw [hv] at h
      cases r with
      | error e =>
          injection h with h1 h2
          exact Except.noConfusion h2
      | ok s =>
          rcases hb : buildInstances m v rest with ⟨t2, r2⟩
          rw [hb] at h
          cases r2 with
          | error e =>
              injection h with h1 h2
              exact Except.noConfusion h2
          | ok ps2 =>
              injection h with h1 h2
              injection h2 with h3
              subst h3
              exact List.Forall₂.cons ⟨tl, s, hv, rfl⟩ (ih t2 ps2 hb)

/-- The first `create_many` loop emits only validation-callback and
constructor events: nothing is persisted and `did_create` is never called
there. -/
theorem buildInstances_events {I : Type} (m : ModelCls I) (v : Validator I) :
    ∀ (l : List Dict),
      (buildInstances m v l).1.all (fun ev => !isStorageEv ev && !isDidCreateEv ev) = true := by
  intro l
  induction l with
  | nil => rfl
  | cons a rest ih =>
      rcases hv : validationSequence v a with ⟨tl, r⟩
      have htl : tl.all isValidationEv = true := by
        have hs := seq_events v a
        rw [hv] at hs
        exact hs
      have htl' : tl.all (fun ev => !isStorageEv ev && !isDidCreateEv ev) = true := by
        rw [List.all_eq_true] at htl ⊢
        intro ev hev
        have h1 := htl ev hev
        cases ev <;> simp_all [isValidationEv, isStorageEv, isDidCreateEv]
      rw [buildInstances_cons_eq, hv]
      cases r with
      | error e => exact htl'
      | ok s =>
          rcases hb : buildInstances m v rest with ⟨t2, r2⟩
          rw [hb] at ih
          have ih' : t2.all (fun ev => !isStorageEv ev && !isDidCreateEv ev) = true := ih
          have hni : (!isStorageEv (Ev.newInstance (I := I) s.orig) &&
              !isDidCreateEv (Ev.newInstance (I := I) s.orig)) = true := rfl
          cases r2 with
          | error e =>
              show ((tl ++ [Ev.newInstance s.orig]) ++ t2).all
                (fun ev => !isStorageEv ev && !isDidCreateEv ev) = true
              simp [List.all_append, htl', ih', hni]
          | ok ps =>
              show ((tl ++ [Ev.newInstance s.orig]) ++ t2).all
                (fun ev => !isStorageEv ev && !isDidCreateEv ev) = true
              simp [List.all_append, htl', ih', hni]

theorem didCreateLoop_cons_eq {I : Type} (v : Validator I) (i : I) (d : Dict)
    (rest : List (I × Dict)) :
    didCreateLoop v ((i, d) :: rest) =
      (match v.did_create i d with
       | Except.error e => ([Ev.didCreate i d], Except.error e)
       | Except.ok _ =>
           (Ev.didCreate i d :: (didCreateLoop v rest).1, (didCreateLoop v rest).2)) := rfl

/-- Success of the second `create_many` loop means `did_create` ran exactly
once per instance, in order. -/
theorem didCreateLoop_ok {I : Type} (v : Validator I) :
    ∀ (ps : List (I × Dict)) (t : List (Ev I)) (u : Unit),
      didCreateLoop v ps = (t, Except.ok u) →
      t = ps.map fun p => Ev.didCreate p.1 p.2 := by
  intro ps
  induction ps with
  | nil =>
      intro t u h
      injection h with h1 h2
      subst h1
      rfl
  | cons p rest ih =>
      obtain ⟨i, d⟩ := p
      intro t u h
      rw [didCreateLoop_cons_eq] at h
      rcases hd : v.did_create i d with e | u'
      · rw [hd] at h
        injection h with h1 h2
        exact Except.noConfusion h2
      · rw [hd] at h
        rcases hl : didCreateLoop v rest with ⟨t2, r2⟩
        rw [hl] at h
        injection h with h1 h2
        subst h1
        cases r2 with
        | error e => exact Except.noConfusion h2
        | ok u2 =>
            rw [ih t2 u2 hl]
            rfl

theorem createManyRun_eq {I : Type} (m : ModelCls I) (v : Validator I) (l : List Dict) :
    createManyRun m v l =
      (match buildInstances m v l with
       | (t, Except.error e) => (t, Except.error e)
       | (t, Except.ok ps) =>
         (match didCreateLoop v ps with
          | (t', Except.error e) =>
              ((t ++ [Ev.bulkCreate (ps.map Prod.fst)]) ++ t', Except.error e)
          | (t', Except.ok _) =>
              ((t ++ [Ev.bulkCreate (ps.map Prod.fst)]) ++ t',
               Except.ok (ps.map Prod.fst)))) := rfl

/-- Success shape of `create_many`: build succeeded, `bulk_create` was
called once with the instances, then `did_create` once per instance. -/
theorem createManyRun_ok_shape {I : Type} (m : ModelCls I) (v : Validator I) (l : List Dict) :
    ∀ t insts, createManyRun m v l = (t, Except.ok insts) →
      ∃ tb ps, buildInstances m v l = (tb, Except.ok ps) ∧
        insts = ps.map Prod.fst ∧
        t = (tb ++ [Ev.bulkCreate insts]) ++ ps.map fun p => Ev.didCreate p.1 p.2 := by
  intro t insts h
  rcases hb : buildInstances m v l with ⟨tb, rb⟩
  cases rb with
  | error e =>
      have hC : createManyRun m v l = (tb, Except.error e) := by
        rw [createManyRun_eq, hb]
      rw [hC] at h
      injection h with h1 h2
      exact Except.noConfusion h2
  | ok ps =>
      have hC : createManyRun m v l =
          (match didCreateLoop v ps with
           | (t', Except.error e) =>
               ((tb ++ [Ev.bulkCreate (ps.map Prod.fst)]) ++ t', Except.error e)
           | (t', Except.ok _) =>
               ((tb ++ [Ev.bulkCreate (ps.map Prod.fst)]) ++ t',
                Except.ok (ps.map Prod.fst))) := by
        rw [createManyRun_eq, hb]
      rcases hd : didCreateLoop v ps with ⟨td, rd⟩
      rw [hd] at hC
      cases rd with
      | error e =>
          rw [hC] at h
          injection h with h1 h2
          exact Except.noConfusion h2
      | ok u =>
          rw [hC] at h
          injection h with h1 h2
          injection h2 with h3
          subst h3
          subst h1
          rw [didCreateLoop_ok v ps td u hd]
          exact ⟨tb, ps, rfl, rfl, rfl⟩

/-- **C6**: `create_many` validates every element before anything is
persisted.  If any element's validation sequence raises, the run raises, and
its trace holds no storage operation and no `did_create` call (in
particular `bulk_create` is never invoked).  When it returns instances, the
elements all validated in input order, the trace is the validation/construct
phase followed by a single `bulk_create` of the instances followed by one
`did_create` per instance in input order, and the returned list matches the
input order. -/
theorem create_many_validates_all_first {I : Type} (m : ModelCls I) (v : Validator I)
    (l : List Dict) :
    ((∃ a ∈ l, isErr (validationSequence v a).2 = true) →
      isErr (createManyRun m v l).2 = true ∧
      (createManyRun m v l).1.all (fun ev => !isStorageEv ev && !isDidCreateEv ev) = true) ∧
    (∀ t insts, createManyRun m v l = (t, Except.ok insts) →
      ∃ tb ps,
        buildInstances m v l = (tb, Except.ok ps) ∧
        List.Forall₂ (fun attrs p => ∃ tl s,
          validationSequence v attrs = (tl, Except.ok s) ∧
          p = (m.construct s.orig, s.orig)) l ps ∧
        insts = ps.map Prod.fst ∧
        t = (tb ++ [Ev.bulkCreate insts]) ++ ps.map (fun p => Ev.didCreate p.1 p.2) ∧
        tb.all (fun ev => !isStorageEv ev && !isDidCreateEv ev) = true) := by
  constructor
  · intro hex
    obtain ⟨a, ha, hfail⟩ := hex
    rcases hb : buildInstances m v l with ⟨tb, rb⟩
    cases rb with
    | ok ps =>
        have hf2 := buildInstances_ok m v l tb ps hb
        obtain ⟨p, hp, tl, s, hvs, -⟩ := forall2_exists_of_mem hf2 a ha
        rw [hvs] at hfail
        simp [isErr] at hfail
    | error e =>
        constructor
        · rw [createManyRun_eq, hb]
          rfl
        · rw [createManyRun_eq, hb]
          have hall := buildInstances_events m v l
          rw [hb] at hall
          exact hall
  · intro t insts h
    obtain ⟨tb, ps, hb, hinsts, ht⟩ := createManyRun_ok_shape m v l t insts h
    have hall := buildInstances_events m v l
    rw [hb] at hall
    exact ⟨tb, ps, hb, buildInstances_ok m v l tb ps hb, hinsts, ht, hall⟩

theorem create_many_validates_all_first_witness :
    (isErr (createManyRun modelId vFail [attrsEx, attrsEx2]).2 = true ∧
     (createManyRun modelId vFail [attrsEx, attrsEx2]).1.all
       (fun ev => !isStorageEv ev && !isDidCreateEv ev) = true) ∧
    (∃ tb ps,
      buildInstances modelId vNoop [attrsEx, attrsEx2] = (tb, Except.ok ps) ∧
      List.Forall₂ (fun attrs p => ∃ tl s,
        validationSequence (I := Dict) vNoop attrs = (tl, Except.ok s) ∧
        p = (modelId.construct s.orig, s.orig)) [attrsEx, attrsEx2] ps ∧
      ([attrsEx, attrsEx2] : List Dict) = ps.map Prod.fst ∧
      ([Ev.cleanFields attrsEx, Ev.clean attrsEx, Ev.base attrsEx, Ev.validateFields attrsEx,
        Ev.validateChecks attrsEx, Ev.willCreate attrsEx, Ev.baseDb attrsEx,
        Ev.newInstance attrsEx,
        Ev.cleanFields attrsEx2, Ev.clean attrsEx2, Ev.base attrsEx2,
        Ev.validateFields attrsEx2, Ev.validateChecks attrsEx2, Ev.willCreate attrsEx2,
        Ev.baseDb attrsEx2, Ev.newInstance attrsEx2,
        Ev.bulkCreate [attrsEx, attrsEx2],
        Ev.didCreate attrsEx attrsEx, Ev.didCreate attrsEx2 attrsEx2] : List (Ev Dict)) =
        (tb ++ [Ev.bulkCreate [attrsEx, attrsEx2]]) ++
          ps.map (fun p => Ev.didCreate p.1 p.2) ∧
      tb.all (fun ev => !isStorageEv ev && !isDidCreateEv ev) = true) :=
  ⟨(create_many_validates_all_first modelId vFail [attrsEx, attrsEx2]).1
      ⟨attrsEx, by simp, rfl⟩,
   (create_many_validates_all_first modelId vNoop [attrsEx, attrsEx2]).2 _
      [attrsEx, attrsEx2] rfl⟩

/-- **C8**: persistence is delegated wholesale to the ORM.  A successful
`create` performs exactly one storage operation, the `objects.create` call
whose result it returns unchanged; a failed validation performs none; a
successful `create_many` performs exactly one storage operation, the single
`bulk_create` of the returned instances. -/
theorem persistence_via_orm_only {I : Type} (m : ModelCls I) (v : Validator I)
    (attrs : Dict) (l : List Dict) :
    (∀ t inst, createRun m v attrs = (t, Except.ok inst) →
      ∃ d, inst = m.objectsCreate d ∧ t.filter isStorageEv = [Ev.objectsCreate d]) ∧
    (∀ t e, validationSequence v attrs = (t, Except.error e) →
      (createRun m v attrs).1.filter isStorageEv = []) ∧
    (∀ t insts, createManyRun m v l = (t, Except.ok insts) →
      t.filter isStorageEv = [Ev.bulkCreate insts]) := by
  refine ⟨?_, ?_, ?_⟩
  · intro t inst h
    obtain ⟨d1, d2, d3, d4, d5, d6, s, hseq, hinst, ht⟩ := createRun_ok_shape m v attrs t inst h
    refine ⟨s.orig, hinst, ?_⟩
    subst ht
    rfl
  · intro t e h
    rw [createRun_eq_of_seq_err m v attrs t e h]
    have hall := seq_events v attrs
    rw [h] at hall
    have hall' : t.all isValidationEv = true := hall
    rw [List.filter_eq_nil_iff]
    intro a ha
    have h2 := (List.all_eq_true.mp hall') a ha
    cases a <;> simp_all [isValidationEv, isStorageEv]
  · intro t insts h
    obtain ⟨tb, ps, hb, hinsts, ht⟩ := createManyRun_ok_shape m v l t insts h
    have hall := buildInstances_events m v l
    rw [hb] at hall
    have hall' : tb.all (fun ev => !isStorageEv ev && !isDidCreateEv ev) = true := hall
    have h1 : tb.filter isStorageEv = [] := by
      rw [List.filter_eq_nil_iff]
      intro a ha
      have h2 := (List.all_eq_true.mp hall') a ha
      simp only [Bool.and_eq_true, Bool.not_eq_true'] at h2
      simp [h2.1]
    have h3 : (ps.map (fun p => Ev.didCreate p.1 p.2)).filter isStorageEv = [] := by
      rw [List.filter_eq_nil_iff]
      intro a ha
      rw [List.mem_map] at ha
      obtain ⟨p, -, rfl⟩ := ha
      simp [isStorageEv]
    subst ht
    rw [List.filter_append, List.filter_append, h1, h3]
    show ([] ++ [Ev.bulkCreate insts]) ++ [] = [Ev.bulkCreate insts]
    simp

theorem persistence_via_orm_only_witness :
    (∃ d, attrsEx = modelId.objectsCreate d ∧
      ([Ev.cleanFields attrsEx, Ev.clean attrsEx, Ev.base attrsEx, Ev.validateFields attrsEx,
        Ev.validateChecks attrsEx, Ev.willCreate attrsEx, Ev.baseDb attrsEx,
        Ev.objectsCreate attrsEx, Ev.didCreate attrsEx attrsEx] : List (Ev Dict)).filter
        isStorageEv = [Ev.objectsCreate d]) ∧
    (createRun modelId vFail attrsEx).1.filter isStorageEv = [] ∧
    ([Ev.cleanFields attrsEx, Ev.clean attrsEx, Ev.base attrsEx, Ev.validateFields attrsEx,
      Ev.validateChecks attrsEx, Ev.willCreate attrsEx, Ev.baseDb attrsEx,
      Ev.newInstance attrsEx,
      Ev.cleanFields attrsEx2, Ev.clean attrsEx2, Ev.base attrsEx2,
      Ev.validateFields attrsEx2, Ev.validateChecks attrsEx2, Ev.willCreate attrsEx2,
      Ev.baseDb attrsEx2, Ev.newInstance attrsEx2,
      Ev.bulkCreate [attrsEx, attrsEx2],
      Ev.didCreate attrsEx attrsEx, Ev.didCreate attrsEx2 attrsEx2] : List (Ev Dict)).filter
      isStorageEv = [Ev.bulkCreate [attrsEx, attrsEx2]] :=
  ⟨(persistence_via_orm_only modelId vNoop attrsEx []).1 _ attrsEx rfl,
   (persistence_via_orm_only modelId vFail attrsEx []).2.1 _ "validation failed" rfl,
   (persistence_via_orm_only modelId vNoop attrsEx [attrsEx, attrsEx2]).2.2 _
     [attrsEx, attrsEx2] rfl⟩

/-- **C7**: handler exceptions map to fixed HTTP statuses: framework or ORM
validation errors give 400; `PermissionError` gives 401 for an anonymous
user and 403 otherwise; an object-not-found error gives 404 with the
lookup's message as the response data; a request whose method is absent
from the endpoint's config gives 405. -/
theorem handler_exceptions_map_to_statuses
    (cfg : List (String × List (String × PyVal))) (handler : Request → HandlerOutcome)
    (req : Request) :
    ((alookup (strLower req.method) cfg).isNone = true →
      dispatch cfg handler req = Except.ok { data := PyVal.pynone, status := 405 }) ∧
    (∀ detail, (alookup (strLower req.method) cfg).isNone = false →
      handler req = HandlerOutcome.exc (HandlerExc.restValidationError detail) →
      dispatch cfg handler req = Except.ok { data := detail, status := 400 }) ∧
    (∀ detail, (alookup (strLower req.method) cfg).isNone = false →
      handler req = HandlerOutcome.exc (HandlerExc.djangoValidationError detail) →
      dispatch cfg handler req = Except.ok { data := detail, status := 400 }) ∧
    ((alookup (strLower req.method) cfg).isNone = false →
      handler req = HandlerOutcome.exc HandlerExc.permissionError →
      dispatch cfg handler req =
        Except.ok (Rsp.mk PyVal.pynone (if req.userIsAnonymous then 401 else 403))) ∧
    (∀ msg, (alookup (strLower req.method) cfg).isNone = false →
      handler req = HandlerOutcome.exc (HandlerExc.notFound msg) →
      dispatch cfg handler req = Except.ok { data := PyVal.pystr msg, status := 404 }) := by
  refine ⟨?_, ?_, ?_, ?_, ?_⟩
  · intro h
    simp [dispatch, h]
  · intro detail h hh
    simp [dispatch, h, hh, excResponse]
  · intro detail h hh
    simp [dispatch, h, hh, excResponse]
  · intro h hh
    simp [dispatch, h, hh, excResponse]
  · intro msg h hh
    simp [dispatch, h, hh, excResponse]

theorem handler_exceptions_map_to_statuses_witness :
    dispatch getConfig (fun _ => HandlerOutcome.ret PyVal.pynone) postReq =
      Except.ok { data := PyVal.pynone, status := 405 } ∧
    dispatch getConfig (fun _ => HandlerOutcome.exc (HandlerExc.restValidationError
        (PyVal.pystr "err"))) getReq =
      Except.ok { data := PyVal.pystr "err", status := 400 } ∧
    dispatch getConfig (fun _ => HandlerOutcome.exc HandlerExc.permissionError) getReqAnon =
      Except.ok (Rsp.mk PyVal.pynone (if getReqAnon.userIsAnonymous then 401 else 403)) ∧
    dispatch getConfig (fun _ => HandlerOutcome.exc HandlerExc.permissionError) getReq =
      Except.ok (Rsp.mk PyVal.pynone (if getReq.userIsAnonymous then 401 else 403)) ∧
    dispatch getConfig (fun _ => HandlerOutcome.exc
        (HandlerExc.notFound "No ModelA matches the given query.")) getReq =
      Except.ok { data := PyVal.pystr "No ModelA matches the given query.", status := 404 } :=
  ⟨(handler_exceptions_map_to_statuses getConfig _ postReq).1 rfl,
   (handler_exceptions_map_to_statuses getConfig _ getReq).2.1 (PyVal.pystr "err") rfl rfl,
   (handler_exceptions_map_to_statuses getConfig _ getReqAnon).2.2.2.1 rfl rfl,
   (handler_exceptions_map_to_statuses getConfig _ getReq).2.2.2.1 rfl rfl,
   (handler_exceptions_map_to_statuses getConfig _ getReq).2.2.2.2
     "No ModelA matches the given query." rfl rfl⟩

/-- **C4**: an overridden handler's return value is coerced when it is a
dict, a `(dict, int)` pair, a framework `Response` or a `ReturnList`, and
fails an assertion when it is `None`, a set, a plain list, a 3-tuple or a
`(dict, non-int)` pair (exercised through the test endpoint's `get`
config). -/
theorem handler_return_coercion :
    (∀ d, dispatch getConfig (fun _ => HandlerOutcome.ret (PyVal.pydict d)) getReq =
      Except.ok { data := PyVal.pydict d, status := 200 }) ∧
    (∀ d n, dispatch getConfig
        (fun _ => HandlerOutcome.ret (PyVal.pytuple [PyVal.pydict d, PyVal.pyint n])) getReq =
      Except.ok { data := PyVal.pydict d, status := n }) ∧
    (∀ data status, dispatch getConfig
        (fun _ => HandlerOutcome.ret (PyVal.pyresponse data status)) getReq =
      Except.ok { data := data, status := status }) ∧
    (∀ xs, dispatch getConfig (fun _ => HandlerOutcome.ret (PyVal.pyreturnlist xs)) getReq =
      Except.ok { data := PyVal.pyreturnlist xs, status := 200 }) ∧
    isErr (dispatch getConfig (fun _ => HandlerOutcome.ret PyVal.pynone) getReq) = true ∧
    (∀ xs, isErr (dispatch getConfig
      (fun _ => HandlerOutcome.ret (PyVal.pyset xs)) getReq) = true) ∧
    (∀ xs, isErr (dispatch getConfig
      (fun _ => HandlerOutcome.ret (PyVal.pylist xs)) getReq) = true) ∧
    (∀ a b c, isErr (dispatch getConfig
      (fun _ => HandlerOutcome.ret (PyVal.pytuple [a, b, c])) getReq) = true) ∧
    (∀ d x, isIntVal x = false → isErr (dispatch getConfig
      (fun _ => HandlerOutcome.ret (PyVal.pytuple [PyVal.pydict d, x])) getReq) = true) := by
  refine ⟨fun d => rfl, fun d n => rfl, fun data status => rfl, fun xs => rfl, rfl,
    fun xs => rfl, fun xs => rfl, ?_, ?_⟩
  · intro a b c
    cases a <;> first | rfl | (cases b <;> rfl)
  · intro d x hx
    cases x <;> first | rfl | exact Bool.noConfusion hx

theorem handler_return_coercion_witness :
    isErr (dispatch getConfig
      (fun _ => HandlerOutcome.ret (PyVal.pytuple [PyVal.pydict [], PyVal.pystr "foo"]))
      getReq) = true :=
  handler_return_coercion.2.2.2.2.2.2.2.2 [] (PyVal.pystr "foo") rfl

theorem checkEndpointDef_no_config (d : EndpointDecl) (c : Option (List (String × List (String × PyVal))))
    (hc : checkEndpointDef d = Except.ok c) (hcfg : d.config = none) : c = none := by
  obtain ⟨ser, mo, co⟩ := d
  simp only at hcfg
  subst hcfg
  cases ser with
  | none => exact Except.noConfusion hc
  | some s =>
      simp only [checkEndpointDef] at hc
      split_ifs at hc
      all_goals
        first
        | exact Except.noConfusion hc
        | (injection hc with h2; exact h2.symm)

/-- **C9**: HTTP dispatch goes only through `as_view`: calling an endpoint
instance directly raises `ImproperlyConfigured`; `as_view` on a class with
no config raises `ImproperlyConfigured` (also when the class was defined,
successfully, without a config); and `as_view` yields a view only when the
class has a config. -/
theorem endpoint_requires_as_view_and_config :
    (∀ e : EndpointCls, callEndpointDirectly e = Except.error ViewErr.improperlyConfigured) ∧
    (∀ e : EndpointCls, e.transformedConfig = none →
      asView e = Except.error ViewErr.improperlyConfigured) ∧
    (∀ (d : EndpointDecl) (e : EndpointCls), defineEndpoint d = Except.ok e →
      d.config = none → asView e = Except.error ViewErr.improperlyConfigured) ∧
    (∀ (e : EndpointCls) f, asView e = Except.ok f →
      ∃ cfg, e.transformedConfig = some cfg) := by
  refine ⟨fun _ => rfl, ?_, ?_, ?_⟩
  · intro e h
    unfold asView
    rw [h]
  · intro d e hdef hcfg
    have hnone : e.transformedConfig = none := by
      unfold defineEndpoint at hdef
      rcases hc : checkEndpointDef d with er | c
      · rw [hc] at hdef
        exact Except.noConfusion hdef
      · rw [hc] at hdef
        injection hdef with h2
        rw [← h2]
        simp only []
        exact checkEndpointDef_no_config d c hc hcfg
    unfold asView
    rw [hnone]
  · intro e f h
    rcases hc : e.transformedConfig with _ | cfg
    · unfold asView at h
      rw [hc] at h
      exact Except.noConfusion h
    · exact ⟨cfg, rfl⟩

theorem endpoint_requires_as_view_and_config_witness :
    callEndpointDirectly clsGet = Except.error ViewErr.improperlyConfigured ∧
    asView clsNoConfig = Except.error ViewErr.improperlyConfigured ∧
    (∃ cfg, clsGet.transformedConfig = some cfg) :=
  ⟨endpoint_requires_as_view_and_config.1 clsGet,
   endpoint_requires_as_view_and_config.2.1 clsNoConfig rfl,
   endpoint_requires_as_view_and_config.2.2.2 clsGet
     (fun handler req => dispatch getConfig handler req) rfl⟩

theorem alookup_append {α : Type} (k : String) (l1 l2 : List (String × α)) :
    alookup k (l1 ++ l2) =
      match alookup k l1 with
      | some v => some v
      | none => alookup k l2 := by
  induction l1 with
  | nil => rfl
  | cons p rest ih =>
      by_cases h : p.1 = k
      · simp [alookup, h]
      · simp only [List.cons_append, alookup, if_neg h]
        exact ih

theorem dictUpdate_nil {α : Type} (u : List (String × α)) : dictUpdate [] u = u := by
  simp [dictUpdate, alookup]

theorem alookup_map_update {α : Type} (n m : String) (v : List (String × α)) :
    ∀ (res : List (String × List (String × α))),
      alookup m (res.map fun p => if p.1 = n then (p.1, dictUpdate p.2 v) else p) =
        match alookup m res with
        | some w => some (if n = m then dictUpdate w v else w)
        | none => none := by
  intro res
  induction res with
  | nil => rfl
  | cons p rest ih =>
      obtain ⟨pk, pv⟩ := p
      by_cases h1 : pk = n
      · by_cases h2 : pk = m
        · have hnm : n = m := h1.symm.trans h2
          simp [alookup, h1, h2, hnm]
        · simp only [List.map_cons, if_pos h1, alookup, if_neg h2]
          exact ih
      · by_cases h2 : pk = m
        · have hnm : ¬n = m := fun hh => h1 (h2.trans hh.symm)
          have hmn : ¬m = n := fun hh => hnm hh.symm
          simp [alookup, h1, h2, hnm, hmn]
        · simp only [List.map_cons, if_neg h1, alookup, if_neg h2]
          exact ih

theorem alookup_none_not_mem {α : Type} (k : String) :
    ∀ (l : List (String × α)), alookup k l = none ↔ k ∉ l.map Prod.fst := by
  intro l
  induction l with
  | nil => simp [alookup]
  | cons p rest ih =>
      by_cases h : p.1 = k
      · simp [alookup, h]
      · rw [alookup, if_neg h, ih]
        simp only [List.map_cons, List.mem_cons, not_or]
        exact ⟨fun hk => ⟨fun hh => h hh.symm, hk⟩, fun hk => hk.2⟩

theorem alookup_some_mem {α : Type} (k : String) :
    ∀ (l : List (String × α)) (w : α), alookup k l = some w → (k, w) ∈ l := by
  intro l
  induction l with
  | nil => intro w h; exact Option.noConfusion h
  | cons p rest ih =>
      intro w h
      by_cases hk : p.1 = k
      · rw [alookup, if_pos hk] at h
        injection h with h2
        subst h2
        subst hk
        exact List.mem_cons_self _ _
      · rw [alookup, if_neg hk] at h
        exact List.mem_cons_of_mem _ (ih w h)

theorem alookup_insertMethod {α : Type} (res : List (String × List (String × α)))
    (n m : String) (v : List (String × α)) :
    alookup m (insertMethod res n v) =
      if n = m then some (dictUpdate ((alookup m res).getD []) v)
      else alookup m res := by
  unfold insertMethod
  by_cases hpres : (alookup n res).isSome = true
  · rw [if_pos hpres, alookup_map_update n m v res]
    by_cases hnm : n = m
    · subst hnm
      rcases hsome : alookup n res with _ | w
      · rw [hsome] at hpres; simp at hpres
      · simp [hsome]
    · rcases hsome : alookup m res with _ | w
      · simp [hsome, hnm]
      · simp [hsome, hnm]
  · rw [if_neg hpres, alookup_append]
    have hnone : ∀ x, ¬alookup n res = some x := by
      intro x hx
      rw [hx] at hpres
      simp at hpres
    by_cases hnm : n = m
    · subst hnm
      rcases hsome : alookup n res with _ | w
      · simp [hsome, alookup, dictUpdate_nil]
      · exact absurd hsome (hnone w)
    · rcases hsome : alookup m res with _ | w
      · simp [hsome, alookup, hnm]
      · simp [hsome, alookup, hnm]

theorem alookup_foldl_insert {α : Type} (m : String) (v : List (String × α)) :
    ∀ (names : List String) (res : List (String × List (String × α))),
      alookup m (names.foldl (fun r n => insertMethod r n v) res) =
        (names.filter fun n => n = m).foldl
          (fun acc _ => some (dictUpdate (acc.getD []) v)) (alookup m res) := by
  intro names
  induction names with
  | nil => intro res; rfl
  | cons n rest ih =>
      intro res
      simp only [List.foldl_cons]
      rw [ih]
      by_cases hnm : n = m
      · simp [List.filter_cons, hnm, alookup_insertMethod]
      · simp [List.filter_cons, hnm, alookup_insertMethod]

theorem occurrencesFor_cons {α : Type} (m : String)
    (kv : String × Option (List (String × α)))
    (rest : List (String × Option (List (String × α)))) :
    occurrencesFor m (kv :: rest) =
      ((methodsOf kv.1).filter fun n => n = m).map (fun _ => kv.2.getD []) ++
        occurrencesFor m rest := by
  simp [occurrencesFor]

/-- Lookup characterization of the shorthand transformation, generalized
over the accumulated result. -/
theorem transform_lookup {α : Type} (m : String) :
    ∀ (config : List (String × Option (List (String × α))))
      (res : List (String × List (String × α))),
      alookup m (config.foldl (fun r kv => (methodsOf kv.1).foldl
          (fun r2 mname => insertMethod r2 mname (kv.2.getD [])) r) res) =
        (occurrencesFor m config).foldl
          (fun acc v => some (dictUpdate (acc.getD []) v)) (alookup m res) := by
  intro config
  induction config with
  | nil => intro res; rfl
  | cons kv rest ih =>
      intro res
      simp only [List.foldl_cons]
      rw [ih, occurrencesFor_cons, List.foldl_append, alookup_foldl_insert, List.foldl_map]

theorem insertMethod_keys_nodup {α : Type} (res : List (String × List (String × α)))
    (n : String) (v : List (String × α)) (h : (res.map Prod.fst).Nodup) :
    ((insertMethod res n v).map Prod.fst).Nodup := by
  unfold insertMethod
  by_cases hpres : (alookup n res).isSome = true
  · rw [if_pos hpres]
    have hkeys : (res.map fun p => if p.1 = n then (p.1, dictUpdate p.2 v) else p).map Prod.fst =
        res.map Prod.fst := by
      rw [List.map_map]
      apply List.map_congr_left
      intro p _
      by_cases hp : p.1 = n
      · simp [hp]
      · simp [hp]
    rw [hkeys]
    exact h
  · rw [if_neg hpres]
    have hnone : alookup n res = none := by
      rcases hx : alookup n res with _ | w
      · rfl
      · rw [hx] at hpres; simp at hpres
    have hnotmem : n ∉ res.map Prod.fst := (alookup_none_not_mem n res).mp hnone
    rw [List.map_append]
    simp [List.nodup_append, h, hnotmem]

theorem foldl_insert_keys_nodup {α : Type} (v : List (String × α)) :
    ∀ (names : List String) (res : List (String × List (String × α))),
      (res.map Prod.fst).Nodup →
      ((names.foldl (fun r n => insertMethod r n v) res).map Prod.fst).Nodup := by
  intro names
  induction names with
  | nil => intro res h; exact h
  | cons n rest ih =>
      intro res h
      simp only [List.foldl_cons]
      exact ih _ (insertMethod_keys_nodup res n v h)

theorem transform_keys_nodup {α : Type} :
    ∀ (config : List (String × Option (List (String × α))))
      (res : List (String × List (String × α))),
      (res.map Prod.fst).Nodup →
      ((config.foldl (fun r kv => (methodsOf kv.1).foldl
          (fun r2 mname => insertMethod r2 mname (kv.2.getD [])) r) res).map Prod.fst).Nodup := by
  intro config
  induction config with
  | nil => intro res h; exact h
  | cons kv rest ih =>
      intro res h
      simp only [List.foldl_cons]
      exact ih _ (foldl_insert_keys_nodup (kv.2.getD []) (methodsOf kv.1) res h)

/-- **C2**: `transform_config_shorthands` expands every comma-separated
config key into one entry per whitespace-stripped method name, reads a
`None` value as the empty dict, and merges the dicts contributed to the
same method name (in config order, by `dict.update`) into a single entry:
the resulting method keys are duplicate-free and each method's entry is
exactly the right-biased merge of its contributed dicts. -/
theorem transform_config_shorthands_spec {α : Type}
    (config : List (String × Option (List (String × α)))) (m : String) :
    alookup m (transform_config_shorthands config) =
      (occurrencesFor m config).foldl
        (fun acc v => some (dictUpdate (acc.getD []) v)) none ∧
    ((transform_config_shorthands config).map Prod.fst).Nodup := by
  constructor
  · exact transform_lookup m config []
  · exact transform_keys_nodup config [] (by simp)

theorem checkMethodCfg_err (mn : String) (cfg : List (String × PyVal))
    (h : KNOWN_HTTP_METHODS.contains mn = false ∨ queryNotCallable cfg = true ∨
         filtersNotDict cfg = true ∨ (hasFilters cfg = true ∧ hasQuery cfg = false) ∨
         (mn = "delete" ∧ hasQuery cfg = false) ∨ urlFieldsNotIterable cfg = true) :
    isErr (checkMethodCfg mn cfg) = true := by
  unfold checkMethodCfg
  split_ifs with h1 h2 h3 h4 h5 h6
  · rfl
  · rfl
  · rfl
  · rfl
  · rfl
  · rfl
  · exfalso
    rcases h with h | h | h | h | h | h
    · exact h1 h
    · exact h2 h
    · exact h3 h
    · exact h4 (by simp [h.1, h.2])
    · exact h5 (by simp [h.1, h.2])
    · exact h6 h

theorem checkMethods_err_of_mem (mn : String) (cfg : List (String × PyVal)) :
    ∀ (t : List (String × List (String × PyVal))), (mn, cfg) ∈ t →
      isErr (checkMethodCfg mn cfg) = true → isErr (checkMethods t) = true := by
  intro t
  induction t with
  | nil => intro hmem _; exact absurd hmem (List.not_mem_nil _)
  | cons p rest ih =>
      intro hmem herr
      obtain ⟨pn, pc⟩ := p
      rcases hc : checkMethodCfg pn pc with e | u
      · show isErr (checkMethods ((pn, pc) :: rest)) = true
        unfold checkMethods
        rw [hc]
        rfl
      · show isErr (checkMethods ((pn, pc) :: rest)) = true
        unfold checkMethods
        rw [hc]
        rcases List.mem_cons.mp hmem with heq | hmem'
        · injection heq with e1 e2
          subst e1
          subst e2
          rw [hc] at herr
          simp [isErr] at herr
        · exact ih hmem' herr

theorem foldl_update_isSome {α : Type} :
    ∀ (os : List (List (String × α))) (acc : Option (List (String × α))),
      (os ≠ [] ∨ acc.isSome = true) →
      (os.foldl (fun a v => some (dictUpdate (a.getD []) v)) acc).isSome = true := by
  intro os
  induction os with
  | nil =>
      intro acc h
      rcases h with h | h
      · exact absurd rfl h
      · exact h
  | cons v rest ih =>
      intro acc _
      simp only [List.foldl_cons]
      exact ih _ (Or.inr rfl)

theorem checkEndpointDef_err_of_methods (d : EndpointDecl)
    (entries : List (String × PyVal))
    (cfgEntries : List (String × Option (List (String × PyVal))))
    (hcfg : d.config = some (PyVal.pydict entries))
    (hmapM : entries.mapM (fun p => (toMethodOpt p.2).map fun vv => (p.1, vv)) = some cfgEntries)
    (herr : isErr (checkMethods (transform_config_shorthands cfgEntries)) = true) :
    isErr (checkEndpointDef d) = true := by
  obtain ⟨ser, mo, co⟩ := d
  simp only at hcfg
  subst hcfg
  cases ser with
  | none => rfl
  | some s =>
      simp only [checkEndpointDef]
      split_ifs
      · rfl
      · rfl
      · rw [hmapM]
        show isErr
          (match checkMethods (transform_config_shorthands cfgEntries) with
           | Except.error e => Except.error e
           | Except.ok _ =>
               Except.ok (some (transform_config_shorthands cfgEntries))) = true
        rcases hcm : checkMethods (transform_config_shorthands cfgEntries) with e | u
        · rfl
        · rw [hcm] at herr
          simp [isErr] at herr

/-- **C3**: a malformed endpoint config fails an assertion at
class-definition time: a missing serializer, a serializer that is not a
class, a config that is not a dict, an unknown HTTP method among the
(comma-split) keys, a non-callable `query`, a `filters` that is not a dict
or that appears without `query`, a `delete` config without `query`, or a
`url_fields` value that is not an iterable each make `checkEndpointDef`
raise — so no class object, and hence no served request, can exist. -/
theorem config_validated_at_class_definition (d : EndpointDecl) :
    (d.serializer = none → isErr (checkEndpointDef d) = true) ∧
    (∀ s, d.serializer = some s → isClassVal s = false →
      isErr (checkEndpointDef d) = true) ∧
    (∀ c, d.config = some c → isDictVal c = false →
      isErr (checkEndpointDef d) = true) ∧
    (∀ entries cfgEntries,
      d.config = some (PyVal.pydict entries) →
      entries.mapM (fun p => (toMethodOpt p.2).map fun vv => (p.1, vv)) = some cfgEntries →
      ((∃ kv ∈ cfgEntries, ∃ mn ∈ methodsOf kv.1,
          KNOWN_HTTP_METHODS.contains mn = false) →
        isErr (checkEndpointDef d) = true) ∧
      (∀ mn cfg, (mn, cfg) ∈ transform_config_shorthands cfgEntries →
        (queryNotCallable cfg = true ∨ filtersNotDict cfg = true ∨
         (hasFilters cfg = true ∧ hasQuery cfg = false) ∨
         (mn = "delete" ∧ hasQuery cfg = false) ∨
         urlFieldsNotIterable cfg = true) →
        isErr (checkEndpointDef d) = true)) := by
  refine ⟨?_, ?_, ?_, ?_⟩
  · intro h
    obtain ⟨ser, mo, co⟩ := d
    simp only at h
    subst h
    rfl
  · intro s hs hclass
    obtain ⟨ser, mo, co⟩ := d
    simp only at hs
    subst hs
    simp only [checkEndpointDef]
    split_ifs
    rfl
  · intro c hc hdict
    obtain ⟨ser, mo, co⟩ := d
    simp only at hc
    subst hc
    cases ser with
    | none => rfl
    | some s =>
        simp only [checkEndpointDef]
        split_ifs
        · rfl
        · rfl
        · cases c <;> first | rfl | exact Bool.noConfusion hdict
  · intro entries cfgEntries hcfg hmapM
    constructor
    · intro hex
      obtain ⟨kv, hkv, mn, hmn, hunknown⟩ := hex
      have hocc : (kv.2.getD []) ∈ occurrencesFor mn cfgEntries := by
        apply List.mem_flatten.mpr
        refine ⟨((methodsOf kv.1).filter fun n => n = mn).map (fun _ => kv.2.getD []), ?_, ?_⟩
        · exact List.mem_map_of_mem _ hkv
        · exact List.mem_map_of_mem _ (List.mem_filter.mpr ⟨hmn, by simp⟩)
      have hsome := foldl_update_isSome (occurrencesFor mn cfgEntries) none
        (Or.inl (List.ne_nil_of_mem hocc))
      have hlk : alookup mn (transform_config_shorthands cfgEntries) =
          (occurrencesFor mn cfgEntries).foldl
            (fun acc v => some (dictUpdate (acc.getD []) v)) none :=
        transform_lookup mn cfgEntries []
      rw [← hlk] at hsome
      obtain ⟨cfg', hcfg'⟩ := Option.isSome_iff_exists.mp hsome
      have hmem := alookup_some_mem mn _ cfg' hcfg'
      exact checkEndpointDef_err_of_methods d entries cfgEntries hcfg hmapM
        (checkMethods_err_of_mem mn cfg' _ hmem
          (checkMethodCfg_err mn cfg' (Or.inl hunknown)))
    · intro mn cfg hmem hbad
      exact checkEndpointDef_err_of_methods d entries cfgEntries hcfg hmapM
        (checkMethods_err_of_mem mn cfg _ hmem (checkMethodCfg_err mn cfg (Or.inr hbad)))

theorem config_validated_at_class_definition_witness :
    isErr (checkEndpointDef declEmpty) = true ∧
    isErr (checkEndpointDef declConfigStr) = true ∧
    isErr (checkEndpointDef declDeleteNoQuery) = true :=
  ⟨(config_validated_at_class_definition declEmpty).1 rfl,
   (config_validated_at_class_definition declConfigStr).2.2.1 (PyVal.pystr "foo") rfl rfl,
   ((config_validated_at_class_definition declDeleteNoQuery).2.2.2
       [("delete", PyVal.pynone)] [("delete", none)] rfl rfl).2
     "delete" []
     (show ("delete", ([] : List (String × PyVal))) ∈
        transform_config_shorthands
          [("delete", (none : Option (List (String × PyVal))))] from
      List.mem_singleton.mpr rfl)
     (Or.inr (Or.inr (Or.inr (Or.inl ⟨rfl, rfl⟩))))⟩
